import Mathlib

/-!
Verification of the golem Tool-Calling Agent Runtime.

This file gives a shallow embedding, in Lean 4, of the runtime's core:
the streaming tool-call assembler (`Client.ChatStreamWithTools`, first
variant of `zhipu` streaming file), the agent orchestration loop
(`Coordinator.RunWithTools` in `internal/agents/agents.go` and
`RunOneShotTools` in the one-shot CLI runner), and the external MCP
process manager (`Manager.Start` / `Stop` / `Call`).

Modelling conventions:
* Go strings are Lean `String`; Go `map` tables are association lists
  with Go-map update semantics (replace in place, else append); Go map
  iteration order is unspecified, so every place the code ranges over a
  map is parameterised by an enumeration `order` of the keys, constrained
  to be a permutation of the key list.
* JSON encoding/decoding (`json.Unmarshal`) and the HTTP transport are
  external libraries: payload parsing is abstracted into already-parsed
  frame/argument values, and fallibility of argument parsing is an
  explicit oracle in the environment record.
* Fallible Go calls returning `(T, error)` become `Except String T`.
-/

namespace Golem

/-- zhipu.ToolCall: a completed tool call as the model emits it
(`ID`, `Type`, `Function.Name`, `Function.Arguments`). -/
structure ToolCall where
  id : String
  typ : String
  funcName : String
  funcArgs : String
deriving DecidableEq, Repr

/-- toolCallDelta: one streamed fragment of a tool call
(`Index`, `ID`, `Type`, `Function.Name`, `Function.Arguments`). -/
structure ToolCallDelta where
  index : Nat
  id : String
  typ : String
  funcName : String
  funcArgs : String
deriving DecidableEq, Repr

/-- toolCallBuilder: the accumulator for fragments of one tool call. -/
structure ToolCallBuilder where
  id : String
  typ : String
  funcName : String
  funcArgs : String
deriving DecidableEq, Repr

/-- The zero value `&toolCallBuilder{}` installed when an index is first seen. -/
def ToolCallBuilder.emptyB : ToolCallBuilder := ⟨"", "", "", ""⟩

/-- toolCallBuilder.complete: `b.id != "" && b.funcName != ""`. -/
def ToolCallBuilder.complete (b : ToolCallBuilder) : Bool :=
  b.id != "" && b.funcName != ""

/-- toolCallBuilder.build: package the accumulated fields as a ToolCall. -/
def ToolCallBuilder.build (b : ToolCallBuilder) : ToolCall :=
  ⟨b.id, b.typ, b.funcName, b.funcArgs⟩

/-- The per-fragment merge performed in the delta loop of
`ChatStreamWithTools`: each field is overwritten by the delta's value
when that value is non-empty, and `funcArgs` is appended to. -/
def mergeDelta (b : ToolCallBuilder) (d : ToolCallDelta) : ToolCallBuilder where
  id := if d.id != "" then d.id else b.id
  typ := if d.typ != "" then d.typ else b.typ
  funcName := if d.funcName != "" then d.funcName else b.funcName
  funcArgs := if d.funcArgs != "" then b.funcArgs ++ d.funcArgs else b.funcArgs

/-- The builder table `map[int]*toolCallBuilder`, as an association list
kept in insertion order. -/
abbrev Builders := List (Nat × ToolCallBuilder)

/-- Lookup in the builder table (`toolCallBuilders[idx]`). -/
def bLookup : Builders → Nat → Option ToolCallBuilder
  | [], _ => none
  | (k, v) :: rest, idx => if k = idx then some v else bLookup rest idx

/-- Go-map assignment `toolCallBuilders[idx] = b`: replace the entry in
place if the key is present, otherwise append. -/
def bSet : Builders → Nat → ToolCallBuilder → Builders
  | [], idx, b => [(idx, b)]
  | (k, v) :: rest, idx, b =>
      if k = idx then (idx, b) :: rest else (k, v) :: bSet rest idx b

/-- One iteration of the delta loop: fetch (or create) the builder at
`d.index` and merge the fragment into it. -/
def applyDelta (bs : Builders) (d : ToolCallDelta) : Builders :=
  let cur := match bLookup bs d.index with
    | some b => b
    | none => ToolCallBuilder.emptyB
  bSet bs d.index (mergeDelta cur d)

/-- The flush loop `for _, b := range toolCallBuilders`, parameterised by
the map-iteration order `order` (Go specifies no order): each visited
key's builder is emitted iff `complete()`. -/
def flushOrder (bs : Builders) (order : List Nat) : List ToolCall :=
  order.filterMap fun k =>
    match bLookup bs k with
    | some b => if b.complete then some b.build else none
    | none => none

/-- The last non-empty string of a list (empty when none is), matching
the overwrite-when-non-empty accumulation of id/type/name fields. -/
def lastNonEmpty (ss : List String) : String :=
  ss.foldl (fun acc s => if s != "" then s else acc) ""

/-- Concatenation of all argument chunks in arrival order. -/
def concatAll (ss : List String) : String :=
  ss.foldl (fun acc s => acc ++ s) ""

/-- The single fragment equivalent to a whole fragment sequence at one
index: the LAST non-empty id/type/name and the concatenated arguments. -/
def combinedDelta (idx : Nat) (ds : List ToolCallDelta) : ToolCallDelta :=
  ⟨idx, lastNonEmpty (ds.map ToolCallDelta.id),
       lastNonEmpty (ds.map ToolCallDelta.typ),
       lastNonEmpty (ds.map ToolCallDelta.funcName),
       concatAll (ds.map ToolCallDelta.funcArgs)⟩

end Golem

namespace Golem

theorem mergeDelta_id (b : ToolCallBuilder) (ds : List ToolCallDelta) :
    (ds.foldl mergeDelta b).id
      = ds.foldl (fun acc d => if d.id != "" then d.id else acc) b.id := by
  induction ds generalizing b with
  | nil => rfl
  | cons d ds ih => simp only [List.foldl_cons, ih, mergeDelta]

theorem mergeDelta_typ (b : ToolCallBuilder) (ds : List ToolCallDelta) :
    (ds.foldl mergeDelta b).typ
      = ds.foldl (fun acc d => if d.typ != "" then d.typ else acc) b.typ := by
  induction ds generalizing b with
  | nil => rfl
  | cons d ds ih => simp only [List.foldl_cons, ih, mergeDelta]

theorem mergeDelta_funcName (b : ToolCallBuilder) (ds : List ToolCallDelta) :
    (ds.foldl mergeDelta b).funcName
      = ds.foldl (fun acc d => if d.funcName != "" then d.funcName else acc) b.funcName := by
  induction ds generalizing b with
  | nil => rfl
  | cons d ds ih => simp only [List.foldl_cons, ih, mergeDelta]

theorem append_chunk_eq (acc s : String) :
    (if s != "" then acc ++ s else acc) = acc ++ s := by
  by_cases h : s = ""
  · simp [h]
  · simp [h]

theorem mergeDelta_funcArgs (b : ToolCallBuilder) (ds : List ToolCallDelta) :
    (ds.foldl mergeDelta b).funcArgs
      = b.funcArgs ++ concatAll (ds.map ToolCallDelta.funcArgs) := by
  induction ds generalizing b with
  | nil => simp [concatAll]
  | cons d ds ih =>
      simp only [List.foldl_cons, ih, mergeDelta, List.map_cons]
      rw [append_chunk_eq]
      simp only [concatAll, List.foldl_cons]
      have h2 : ∀ (l : List String) (x y : String),
          l.foldl (fun acc s => acc ++ s) (x ++ y)
            = x ++ l.foldl (fun acc s => acc ++ s) y := by
        intro l
        induction l with
        | nil => intro x y; rfl
        | cons z l ihl => intro x y; simp only [List.foldl_cons, String.append_assoc, ihl]
      have h3 : ("" : String) ++ d.funcArgs = d.funcArgs ++ "" := by simp
      rw [h3, h2 (ds.map ToolCallDelta.funcArgs) d.funcArgs "", String.append_assoc]

theorem step_empty_eq (s : String) : (if s != "" then s else "") = s := by
  by_cases h : s = "" <;> simp [h]

theorem lastNonEmpty_select (ss : List String) (b : String) :
    ss.foldl (fun acc s => if s != "" then s else acc) b
      = (if lastNonEmpty ss != "" then lastNonEmpty ss else b) := by
  induction ss generalizing b with
  | nil => simp [lastNonEmpty]
  | cons s ss ih =>
      have hcons : lastNonEmpty (s :: ss)
          = (if lastNonEmpty ss != "" then lastNonEmpty ss else s) := by
        simp only [lastNonEmpty, List.foldl_cons, step_empty_eq]
        exact ih s
      simp only [List.foldl_cons, ih, hcons]
      by_cases h2 : lastNonEmpty ss = "" <;> simp [h2]


theorem builder_eq_of_fields (a b : ToolCallBuilder) (h1 : a.id = b.id)
    (h2 : a.typ = b.typ) (h3 : a.funcName = b.funcName)
    (h4 : a.funcArgs = b.funcArgs) : a = b := by
  cases a; cases b; simp_all

/-- C3 (amended): merging a sequence of tool-call fragments at one index
yields the builder in which the LAST non-empty id wins (a later non-empty
id overwrites an earlier one), the LAST non-empty name wins, and the
argument chunks are concatenated in arrival order; hence the result is
identical to merging the single fragment carrying that last id, last
name and the concatenated arguments (fragmentation invariance up to
last-wins merging). -/
theorem merge_fragmentation_invariance (idx : Nat) (ds : List ToolCallDelta) :
    ds.foldl mergeDelta ToolCallBuilder.emptyB
      = mergeDelta ToolCallBuilder.emptyB (combinedDelta idx ds) := by
  apply builder_eq_of_fields
  · rw [mergeDelta_id]
    simp only [mergeDelta, combinedDelta, ToolCallBuilder.emptyB, step_empty_eq]
    rw [lastNonEmpty, List.foldl_map]
  · rw [mergeDelta_typ]
    simp only [mergeDelta, combinedDelta, ToolCallBuilder.emptyB, step_empty_eq]
    rw [lastNonEmpty, List.foldl_map]
  · rw [mergeDelta_funcName]
    simp only [mergeDelta, combinedDelta, ToolCallBuilder.emptyB, step_empty_eq]
    rw [lastNonEmpty, List.foldl_map]
  · rw [mergeDelta_funcArgs]
    simp only [mergeDelta, combinedDelta, ToolCallBuilder.emptyB]
    rw [append_chunk_eq]

/-- C3 counterexample: the claim "the first non-empty id wins (a later
non-empty id does not overwrite it)" is false in the code: after a
fragment with id "call_a" is followed by a fragment with id "call_b",
the builder holds "call_b", not "call_a". -/
theorem first_id_wins_counterexample :
    (mergeDelta (mergeDelta ToolCallBuilder.emptyB ⟨0, "call_a", "function", "f", "x"⟩)
        ⟨0, "call_b", "", "", "y"⟩).id = "call_b"
    ∧ ("call_b" : String) ≠ "call_a" := by
  constructor
  · rfl
  · decide

theorem flushOrder_keys (bs : Builders) (h : (bs.map Prod.fst).Nodup) :
    flushOrder bs (bs.map Prod.fst)
      = (bs.filter fun p => p.2.complete).map fun p => p.2.build := by
  induction bs with
  | nil => rfl
  | cons p rest ih =>
      obtain ⟨k, b⟩ := p
      simp only [List.map_cons, List.nodup_cons] at h
      obtain ⟨hk, hnd⟩ := h
      show List.filterMap _ (k :: rest.map Prod.fst) = _
      rw [List.filterMap_cons]
      have hlk : bLookup ((k, b) :: rest) k = some b := by simp [bLookup]
      have htail : List.filterMap
          (fun x => match bLookup ((k, b) :: rest) x with
            | some c => if c.complete then some c.build else none
            | none => none) (rest.map Prod.fst)
          = List.filterMap
          (fun x => match bLookup rest x with
            | some c => if c.complete then some c.build else none
            | none => none) (rest.map Prod.fst) := by
        apply List.filterMap_congr
        intro x hx
        have hne : k ≠ x := fun he => hk (he ▸ hx)
        simp [bLookup, hne]
      simp only [hlk]
      by_cases hc : b.complete
      · simp only [hc, if_pos]
        rw [List.filter_cons]
        simp only [hc, if_pos, List.map_cons]
        have ihr := ih hnd
        simp only [flushOrder] at ihr
        rw [htail, ihr]
      · simp only [hc]
        rw [List.filter_cons]
        simp only [hc]
        have ihr := ih hnd
        simp only [flushOrder] at ihr
        simp only [Bool.false_eq_true, if_false]
        rw [htail, ihr]

/-- C4: a tool-call builder is complete iff both its id and its function
name are non-empty, and at turn completion (the terminator event or a
tool_calls/stop finish-reason) the flush loop emits, for any admissible
map-iteration order, exactly the builds of the complete builders — every
incomplete builder is discarded. -/
theorem complete_iff_and_flush_exact :
    (∀ b : ToolCallBuilder, b.complete = true ↔ (b.id ≠ "" ∧ b.funcName ≠ ""))
    ∧ ∀ (bs : Builders) (order : List Nat),
        (bs.map Prod.fst).Nodup → order.Perm (bs.map Prod.fst) →
        (flushOrder bs order).Perm
          ((bs.filter fun p => p.2.complete).map fun p => p.2.build) := by
  constructor
  · intro b
    simp [ToolCallBuilder.complete]
  · intro bs order hnd hperm
    rw [← flushOrder_keys bs hnd]
    exact hperm.filterMap _

/-- Builder table used to instantiate the C4 flush theorem: index 0 holds
a complete builder, index 1 an incomplete one (empty id). -/
def c4Builders : Builders :=
  [(0, ⟨"call_a", "function", "list_dir", "pa"⟩),
   (1, ⟨"", "", "read_file", "pb"⟩)]

theorem complete_iff_and_flush_exact_witness :
    (flushOrder c4Builders [1, 0]).Perm
      ((c4Builders.filter fun p => p.2.complete).map fun p => p.2.build) :=
  complete_iff_and_flush_exact.2 c4Builders [1, 0] (by decide) (by decide)

/-- Builder table with two complete builders whose calls differ, used to
exhibit the map-iteration-order dependence of the flush loop. -/
def c5Builders : Builders :=
  [(0, ⟨"id0", "function", "f0", "a0"⟩),
   (1, ⟨"id1", "function", "f1", "a1"⟩)]

/-- C5 counterexample: the flush loop ranges over a Go map, whose
iteration order is unspecified; the order [1, 0] is an admissible
iteration of the keys of `c5Builders` (it is a permutation of them), and
it emits the completed calls in descending index order, differing from
the ascending-index emission. So the claim that completed calls are
always emitted in ascending index order fails. -/
theorem index_order_counterexample :
    ([1, 0] : List Nat).Perm (c5Builders.map Prod.fst)
    ∧ flushOrder c5Builders [1, 0]
        ≠ flushOrder c5Builders
            (List.insertionSort (· ≤ ·) (c5Builders.map Prod.fst)) := by
  constructor
  · decide
  · decide

/-- C5 (amended): the emission order of completed calls follows the map
iteration order, which is unspecified; what holds is that for every
admissible iteration order (any permutation of the builder-table keys)
the emitted calls are a permutation of the ascending-index emission —
the multiset of completed calls is order-independent, their sequence is
not. -/
theorem flush_perm_of_ascending (bs : Builders) (order : List Nat)
    (h : order.Perm (bs.map Prod.fst)) :
    (flushOrder bs order).Perm
      (flushOrder bs (List.insertionSort (· ≤ ·) (bs.map Prod.fst))) :=
  List.Perm.filterMap _ (h.trans (List.perm_insertionSort _ _).symm)

theorem flush_perm_of_ascending_witness :
    (flushOrder c5Builders [1, 0]).Perm
      (flushOrder c5Builders
        (List.insertionSort (· ≤ ·) (c5Builders.map Prod.fst))) :=
  flush_perm_of_ascending c5Builders [1, 0] (by decide)

/-- Flush of the builder table in its insertion order — one admissible
Go map-iteration order (order-dependence is covered by `flushOrder`). -/
def flushInsertion (bs : Builders) : List ToolCall :=
  flushOrder bs (bs.map Prod.fst)

/-- streamEvent choice: `Delta.Content`, `Delta.ToolCalls`, `FinishReason`. -/
structure StreamChoice where
  content : String
  toolCalls : List ToolCallDelta
  finishReason : String
deriving DecidableEq, Repr

/-- One already-classified line of the SSE body: `junk` covers blank
lines, lines without the data marker and malformed JSON payloads (all
skipped by `continue`); `done` is the terminator payload; `event` is a
parsed streamEvent. -/
inductive Frame
  | junk
  | done
  | event (choices : List StreamChoice)
deriving DecidableEq, Repr

/-- The state of the scanner once the line loop stops: `scanner.Err()`
is nil on plain end of input and non-nil on a read error. -/
inductive ScanEnd
  | eof
  | readErr (msg : String)
deriving DecidableEq, Repr

/-- What the goroutine pushed on its three channels before closing them. -/
structure StreamOut where
  texts : List String
  calls : List ToolCall
  errs : List String
deriving DecidableEq, Repr

/-- The error (if any) sent after the scan loop: `if err := scanner.Err(); err != nil`. -/
def scanErrs : ScanEnd → List String
  | .eof => []
  | .readErr m => [m]

/-- The per-choice body of the event loop: emit non-empty text, merge
every tool-call delta into the builder table, and on a tool_calls/stop
finish-reason flush the complete builders and reset the table. -/
def processChoice (st : Builders × List String × List ToolCall)
    (c : StreamChoice) : Builders × List String × List ToolCall :=
  let texts := if c.content != "" then st.2.1 ++ [c.content] else st.2.1
  let bs := c.toolCalls.foldl applyDelta st.1
  if c.finishReason == "tool_calls" || c.finishReason == "stop" then
    ([], texts, st.2.2 ++ flushInsertion bs)
  else (bs, texts, st.2.2)

/-- The scan loop of `ChatStreamWithTools`: junk lines are skipped, the
terminator flushes complete builders and returns with no error, events
are folded through `processChoice`; when the input is exhausted without
a terminator, an error is emitted only if the scanner reports one. -/
def runFrames (st : Builders × List String × List ToolCall) :
    List Frame → ScanEnd → StreamOut
  | [], e => ⟨st.2.1, st.2.2, scanErrs e⟩
  | .junk :: rest, e => runFrames st rest e
  | .done :: _, _ => ⟨st.2.1, st.2.2 ++ flushInsertion st.1, []⟩
  | .event cs :: rest, e => runFrames (cs.foldl processChoice st) rest e

/-- The whole streamed response: start from an empty builder table and
empty channels. -/
def chatStreamWithTools (frames : List Frame) (e : ScanEnd) : StreamOut :=
  runFrames ([], [], []) frames e

/-- C6 counterexample: a byte stream that is exhausted (clean end of
input) without the terminator produces NO error on the error channel —
exactly like a stream that ends with the terminator — so the two are
not distinguishable, contrary to the claim. -/
theorem exhaustion_no_error_counterexample :
    (chatStreamWithTools [Frame.event [⟨"hi", [], ""⟩]] ScanEnd.eof).errs = []
    ∧ (chatStreamWithTools [Frame.done] ScanEnd.eof).errs = [] :=
  ⟨rfl, rfl⟩

theorem runFrames_errs (frames : List Frame) :
    ∀ (st : Builders × List String × List ToolCall) (e : ScanEnd),
    (runFrames st frames e).errs
      = if Frame.done ∈ frames then [] else scanErrs e := by
  induction frames with
  | nil => intro st e; simp [runFrames]
  | cons f rest ih =>
      intro st e
      cases f with
      | junk => simp [runFrames, ih]
      | done => simp [runFrames]
      | event cs => simp [runFrames, ih]

/-- C6 (amended): the decoder surfaces an error on its error channel
exactly when the underlying scanner reports a read error and no
terminator was seen; exhaustion of the byte stream without a terminator
but with a clean scanner produces no error and is therefore
indistinguishable from a terminator finish, and a stream ending with
the terminator produces no error. -/
theorem stream_errors_characterization (frames : List Frame) (e : ScanEnd) :
    (chatStreamWithTools frames e).errs
      = if Frame.done ∈ frames then [] else scanErrs e :=
  runFrames_errs frames ([], [], []) e

/-- zhipu.Message: role, content (modelled as the string case of the
`interface{}` field), tool calls and the tool_call_id back-reference. -/
structure Message where
  role : String
  content : String
  toolCalls : List ToolCall
  toolCallID : String
deriving DecidableEq, Repr

/-- The decoded JSON arguments object (`map[string]interface{}`),
modelled as a list of key/value pairs with string values. -/
abbrev Args := List (String × String)

/-- One choice of a ChatResponse. -/
structure RespChoice where
  message : Message
deriving DecidableEq, Repr

/-- zhipu.ChatResponse as used by the loop: `Choices` and
`Usage.TotalTokens`. -/
structure ChatResponse where
  choices : List RespChoice
  totalTokens : Nat
deriving DecidableEq, Repr

/-- The coordinator's collaborators: the chat transport
(`c.client.Chat`, a function of the request's message list — the other
request fields are fixed per agent), the registry's handler table
(`r.handlers`), and the JSON argument parser (`json.Unmarshal` on the
arguments text, an external library call). -/
structure Env where
  chat : List Message → Except String ChatResponse
  handlers : String → Option (Args → Except String String)
  parseArgs : String → Except String Args

/-- ToolRegistry.Execute: look the handler up by name; an unknown name
is an error `unknown tool: name`, otherwise the handler runs. -/
def registryExecute (env : Env) (name : String) (args : Args) :
    Except String String :=
  match env.handlers name with
  | none => Except.error ("unknown tool: " ++ name)
  | some h => h args

/-- The body of the tool-call loop in `Coordinator.RunWithTools`: the
arguments text is parsed and, ON PARSE FAILURE, REPLACED BY THE EMPTY
OBJECT (`args = make(map[string]interface{})`) — execution proceeds
regardless; an execution error becomes the text `Error: ...`; the
result is appended as a tool message carrying the originating call id. -/
def execToolCall (env : Env) (tc : ToolCall) : Message :=
  let args : Args := match env.parseArgs tc.funcArgs with
    | Except.ok a => a
    | Except.error _ => []
  let result : String := match registryExecute env tc.funcName args with
    | Except.ok r => r
    | Except.error e => "Error: " ++ e
  { role := "tool", content := result, toolCalls := [], toolCallID := tc.id }

/-- The `for _, tc := range choice.Message.ToolCalls` loop: append one
tool message per call, in the order of the calls. -/
def appendToolResults (env : Env) (messages : List Message)
    (tcs : List ToolCall) : List Message :=
  tcs.foldl (fun msgs tc => msgs ++ [execToolCall env tc]) messages

/-- Result of a successful run (`Result.Content`, `Result.Tokens`). -/
structure RunResult where
  content : String
  tokens : Nat
deriving DecidableEq, Repr

/-- The error outcomes of `RunWithTools`: a failed chat request
(`agent ... failed: ...`), an empty choice list (`no response from
agent`), and the iteration ceiling (`agent exceeded maximum tool call
iterations`). -/
inductive RunError
  | chatFailed (e : String)
  | noResponse
  | iterationCeiling
deriving DecidableEq, Repr

/-- The `for i := 0; i < maxIterations; i++` loop of
`Coordinator.RunWithTools`, with the remaining iteration budget as
fuel. The second component of the pair is ghost instrumentation: the
number of chat requests issued, used to state the iteration-ceiling
bound; the Go code does not compute it. -/
def runLoop (env : Env) (fuel : Nat) (messages : List Message)
    (totalTokens : Nat) : Except RunError RunResult × Nat :=
  match fuel with
  | 0 => (Except.error RunError.iterationCeiling, 0)
  | fuel' + 1 =>
    match env.chat messages with
    | Except.error e => (Except.error (RunError.chatFailed e), 1)
    | Except.ok resp =>
      match resp.choices with
      | [] => (Except.error RunError.noResponse, 1)
      | choice :: _ =>
        let messages' := messages ++ [choice.message]
        if choice.message.toolCalls = [] then
          (Except.ok { content := choice.message.content,
                       tokens := totalTokens + resp.totalTokens }, 1)
        else
          let next := runLoop env fuel'
            (appendToolResults env messages' choice.message.toolCalls)
            (totalTokens + resp.totalTokens)
          (next.1, next.2 + 1)

/-- Coordinator.RunWithTools from the start of its loop:
`maxIterations = 10`, empty token count. (The fall-back to the plain
`Run` when no tools are registered is outside the tool loop and not
modelled; the registered tool declarations ride inside the `chat`
oracle.) -/
def runWithTools (env : Env) (initMessages : List Message) :
    Except RunError RunResult × Nat :=
  runLoop env 10 initMessages 0

theorem appendToolResults_eq_map (env : Env) (messages : List Message)
    (tcs : List ToolCall) :
    appendToolResults env messages tcs
      = messages ++ tcs.map (execToolCall env) := by
  induction tcs generalizing messages with
  | nil => simp [appendToolResults]
  | cons tc tcs ih =>
      show appendToolResults env (messages ++ [execToolCall env tc]) tcs = _
      rw [ih]
      simp

/-- C1: when the model's response carries tool calls, the loop executes
them sequentially in assembly order (the fold over the call list equals
appending the mapped results in order), appends exactly N tool-role
messages — the i-th carrying the result content for the i-th call and
referencing that call's id — and only then issues the next model
request (the next loop iteration starts from the history extended by
the assistant message and all N tool messages). -/
theorem tool_results_appended_in_order (env : Env) (fuel : Nat)
    (messages : List Message) (totalTokens : Nat) (resp : ChatResponse)
    (choice : RespChoice) (rest : List RespChoice)
    (hchat : env.chat messages = Except.ok resp)
    (hchoices : resp.choices = choice :: rest)
    (htc : choice.message.toolCalls ≠ []) :
    (appendToolResults env (messages ++ [choice.message]) choice.message.toolCalls
        = (messages ++ [choice.message])
            ++ choice.message.toolCalls.map (execToolCall env))
    ∧ (choice.message.toolCalls.map (execToolCall env)).length
        = choice.message.toolCalls.length
    ∧ (∀ i (h : i < choice.message.toolCalls.length),
        ∃ m, (choice.message.toolCalls.map (execToolCall env)).get? i = some m
          ∧ m.role = "tool"
          ∧ m.toolCallID = (choice.message.toolCalls.get ⟨i, h⟩).id)
    ∧ runLoop env (fuel + 1) messages totalTokens
        = ((runLoop env fuel
            ((messages ++ [choice.message])
              ++ choice.message.toolCalls.map (execToolCall env))
            (totalTokens + resp.totalTokens)).1,
           (runLoop env fuel
            ((messages ++ [choice.message])
              ++ choice.message.toolCalls.map (execToolCall env))
            (totalTokens + resp.totalTokens)).2 + 1) := by
  refine ⟨appendToolResults_eq_map env _ _, by simp, ?_, ?_⟩
  · intro i h
    refine ⟨execToolCall env (choice.message.toolCalls.get ⟨i, h⟩), ?_, rfl, rfl⟩
    rw [List.get?_map, List.get?_eq_get h]
    rfl
  · simp only [runLoop, hchat, hchoices]
    rw [if_neg htc, appendToolResults_eq_map]

/-- A concrete assistant choice carrying two tool calls, to instantiate
the C1 theorem. -/
def c1Message : Message :=
  ⟨"assistant", "",
    [⟨"call_1", "function", "list_dir", "pa"⟩,
     ⟨"call_2", "function", "read_file", "pb"⟩], ""⟩

/-- The response choice wrapping `c1Message`. -/
def c1Choice : RespChoice := ⟨c1Message⟩

/-- A concrete response wrapping `c1Choice`. -/
def c1Resp : ChatResponse := { choices := [c1Choice], totalTokens := 7 }

/-- A concrete environment whose model always answers `c1Resp` and whose
registry knows `list_dir` only. -/
def c1Env : Env :=
  { chat := fun _ => Except.ok c1Resp,
    handlers := fun n =>
      if n = "list_dir" then some (fun _ => Except.ok "LISTING") else none,
    parseArgs := fun _ => Except.ok [] }

theorem tool_results_appended_in_order_witness :
    appendToolResults c1Env ([] ++ [c1Choice.message]) c1Choice.message.toolCalls
      = ([] ++ [c1Choice.message])
          ++ c1Choice.message.toolCalls.map (execToolCall c1Env) :=
  (tool_results_appended_in_order c1Env 3 [] 0 c1Resp c1Choice [] rfl rfl
    (by decide)).1

theorem runLoop_always_tools (env : Env)
    (halways : ∀ messages, ∃ resp choice rest,
      env.chat messages = Except.ok resp ∧ resp.choices = choice :: rest
      ∧ choice.message.toolCalls ≠ []) :
    ∀ (fuel : Nat) (messages : List Message) (totalTokens : Nat),
      runLoop env fuel messages totalTokens
        = (Except.error RunError.iterationCeiling, fuel) := by
  intro fuel
  induction fuel with
  | zero => intro m t; rfl
  | succ f ih =>
      intro messages t
      obtain ⟨resp, choice, rest, hchat, hch, htc⟩ := halways messages
      simp only [runLoop, hchat, hch]
      rw [if_neg htc]
      simp [ih]

/-- C2: if the model returns at least one tool call on every request
(and a non-empty choice list), `RunWithTools` fails with the
iteration-ceiling error after exactly `maxIterations = 10` model
requests — never more — and the failure is an error returned to the
caller, not a partial answer. -/
theorem iteration_ceiling_exact (env : Env)
    (halways : ∀ messages, ∃ resp choice rest,
      env.chat messages = Except.ok resp ∧ resp.choices = choice :: rest
      ∧ choice.message.toolCalls ≠ []) (initMessages : List Message) :
    runWithTools env initMessages
      = (Except.error RunError.iterationCeiling, 10) :=
  runLoop_always_tools env halways 10 initMessages 0

theorem iteration_ceiling_exact_witness :
    runWithTools c1Env [] = (Except.error RunError.iterationCeiling, 10) :=
  iteration_ceiling_exact c1Env
    (fun _ => ⟨c1Resp, c1Choice, [], rfl, rfl, by decide⟩) []

/-- The per-call body of `RunOneShotTools` (one-shot CLI runner): handler
lookup first (unknown tool becomes an error tool message), then argument
parsing — a parse failure becomes an `Error: invalid arguments: ...`
tool message WITHOUT invoking the handler — then the handler runs, its
failure becoming `Error: ...` text. -/
def oneshotToolMessage (env : Env) (tc : ToolCall) : Message :=
  match env.handlers tc.funcName with
  | none => ⟨"tool", "Error: tool not found: " ++ tc.funcName, [], tc.id⟩
  | some handler =>
    match env.parseArgs tc.funcArgs with
    | Except.error e => ⟨"tool", "Error: invalid arguments: " ++ e, [], tc.id⟩
    | Except.ok args =>
      match handler args with
      | Except.ok result => ⟨"tool", result, [], tc.id⟩
      | Except.error e => ⟨"tool", "Error: " ++ e, [], tc.id⟩

/-- Environment for the C7 counterexample: the registry knows `mytool`,
whose handler reports that it ran; the argument parser rejects the text
`not json`. -/
def c7Env : Env :=
  ⟨fun _ => Except.error "unused",
   fun n => if n = "mytool" then some (fun _ => Except.ok "HANDLER_RAN") else none,
   fun s => if s = "not json" then Except.error "invalid character" else Except.ok []⟩

/-- A tool call whose arguments text does not parse. -/
def c7Call : ToolCall := ⟨"call_9", "function", "mytool", "not json"⟩

/-- C7 counterexample: in `Coordinator.RunWithTools`, when the arguments
text fails to parse the failure is swallowed — the arguments are
replaced by the empty object and the handler IS invoked: the appended
tool message carries the handler's output, not a bad-arguments error.
This refutes the claim that the handler is not invoked and that a
BadArguments error result is produced on this path. -/
theorem bad_arguments_counterexample :
    c7Env.parseArgs c7Call.funcArgs = Except.error "invalid character"
    ∧ execToolCall c7Env c7Call = ⟨"tool", "HANDLER_RAN", [], "call_9"⟩ :=
  ⟨rfl, rfl⟩

/-- C7 (amended): the fail-fast behaviour holds on the one-shot runner
path (`RunOneShotTools`), not in the coordinator loop: there, an
arguments text that does not parse yields the error-content tool
message `Error: invalid arguments: ...` referencing the call id, the
handler is not invoked (the resulting message is the same for every
environment agreeing on the parser and having some handler registered
for the name), and the failure is a tool message, never a fatal error.
In `Coordinator.RunWithTools` the parse failure instead substitutes the
empty arguments object and invokes the handler. -/
theorem oneshot_bad_arguments (env : Env) (tc : ToolCall) (e : String)
    (hparse : env.parseArgs tc.funcArgs = Except.error e)
    (hfound : (env.handlers tc.funcName).isSome) :
    oneshotToolMessage env tc
      = ⟨"tool", "Error: invalid arguments: " ++ e, [], tc.id⟩
    ∧ ∀ env2 : Env, env2.handlers tc.funcName ≠ none →
        env2.parseArgs = env.parseArgs →
        oneshotToolMessage env2 tc = oneshotToolMessage env tc := by
  obtain ⟨h, hh⟩ := Option.isSome_iff_exists.mp hfound
  constructor
  · simp [oneshotToolMessage, hh, hparse]
  · intro env2 hne hp
    obtain ⟨h2, hh2⟩ := Option.ne_none_iff_exists'.mp hne
    simp [oneshotToolMessage, hh, hh2, hparse, hp]

theorem oneshot_bad_arguments_witness :
    oneshotToolMessage c7Env c7Call
      = ⟨"tool", "Error: invalid arguments: " ++ "invalid character", [], "call_9"⟩ :=
  (oneshot_bad_arguments c7Env c7Call "invalid character" rfl rfl).1

/-- mcp.Server: the executable spec of an external tool provider
(name, command, arguments; env/description/auto-start carry no
behaviour in the managed lifecycle). -/
structure MCPServer where
  name : String
  command : String
  args : List String
deriving DecidableEq, Repr

/-- mcp.Process: one managed child process. `running` is the `Running`
flag; `stdinClosed` records that `Stop` closed the input pipe; and
`stdoutPending` is the correlation state — responses sitting unread in
the output pipe. Launch and kill themselves are OS effects modelled as
succeeding. -/
structure MCPProcess where
  server : MCPServer
  running : Bool
  stdinClosed : Bool
  stdoutPending : List String
deriving DecidableEq, Repr

/-- The freshly wired process installed by `Manager.Start`: running,
open input, empty output pipe — no residue from any prior instance. -/
def MCPProcess.fresh (s : MCPServer) : MCPProcess := ⟨s, true, false, []⟩

/-- The manager's table `map[string]*Process`, as an association list. -/
abbrev ManagerState := List (String × MCPProcess)

/-- Lookup `m.servers[name]`. -/
def mgrLookup : ManagerState → String → Option MCPProcess
  | [], _ => none
  | (k, v) :: rest, name => if k = name then some v else mgrLookup rest name

/-- Go-map assignment `m.servers[name] = proc`. -/
def mgrSet : ManagerState → String → MCPProcess → ManagerState
  | [], name, p => [(name, p)]
  | (k, v) :: rest, name, p =>
      if k = name then (name, p) :: rest else (k, v) :: mgrSet rest name p

/-- Manager.Start: error if an entry with this identifier exists AND is
running; otherwise launch and install a fresh process record. -/
def mgrStart (m : ManagerState) (server : MCPServer) :
    Except String ManagerState :=
  if (match mgrLookup m server.name with
      | some proc => proc.running
      | none => false)
  then Except.error ("server " ++ server.name ++ " already running")
  else Except.ok (mgrSet m server.name (MCPProcess.fresh server))

/-- Manager.Stop: unknown identifier is the error `server ... not
found`; a registered but already-stopped process is a no-op success; a
running process gets its stdin closed, is killed, and is marked not
running (the table entry is kept). -/
def mgrStop (m : ManagerState) (name : String) : Except String ManagerState :=
  match mgrLookup m name with
  | none => Except.error ("server " ++ name ++ " not found")
  | some proc =>
    if !proc.running then Except.ok m
    else Except.ok (mgrSet m name
      { proc with stdinClosed := true, running := false })

theorem mgrLookup_set_self (m : ManagerState) (k : String) (p : MCPProcess) :
    mgrLookup (mgrSet m k p) k = some p := by
  induction m with
  | nil => simp [mgrSet, mgrLookup]
  | cons kv rest ih =>
      obtain ⟨k0, v0⟩ := kv
      by_cases h : k0 = k
      · simp [mgrSet, h, mgrLookup]
      · simp [mgrSet, h, mgrLookup, ih]

/-- C8: stopping a running process and then starting a process with the
same identifier succeeds (no already-running error) and installs the
freshly wired process record: running, stdin open, and an empty pending
output pipe — no residual correlation state survives from the prior
instance. -/
theorem stop_start_fresh (m : ManagerState) (server : MCPServer)
    (proc : MCPProcess) (hl : mgrLookup m server.name = some proc)
    (hr : proc.running = true) :
    ∃ m1, mgrStop m server.name = Except.ok m1
      ∧ mgrStart m1 server
          = Except.ok (mgrSet m1 server.name (MCPProcess.fresh server))
      ∧ mgrLookup (mgrSet m1 server.name (MCPProcess.fresh server)) server.name
          = some (MCPProcess.fresh server)
      ∧ (MCPProcess.fresh server).stdoutPending = []
      ∧ (MCPProcess.fresh server).stdinClosed = false := by
  refine ⟨mgrSet m server.name
    { proc with stdinClosed := true, running := false }, ?_, ?_, ?_, rfl, rfl⟩
  · simp [mgrStop, hl, hr]
  · simp [mgrStart, mgrLookup_set_self]
  · exact mgrLookup_set_self _ _ _

/-- A manager holding one running filesystem provider whose output pipe
carries a stale unread response. -/
def c8Manager : ManagerState :=
  [("filesystem", ⟨⟨"filesystem", "npx", ["-y"]⟩, true, false, ["stale"]⟩)]

theorem stop_start_fresh_witness :
    ∃ m1, mgrStop c8Manager "filesystem" = Except.ok m1
      ∧ mgrStart m1 ⟨"filesystem", "npx", ["-y"]⟩
          = Except.ok (mgrSet m1 "filesystem"
              (MCPProcess.fresh ⟨"filesystem", "npx", ["-y"]⟩))
      ∧ mgrLookup (mgrSet m1 "filesystem"
            (MCPProcess.fresh ⟨"filesystem", "npx", ["-y"]⟩)) "filesystem"
          = some (MCPProcess.fresh ⟨"filesystem", "npx", ["-y"]⟩)
      ∧ (MCPProcess.fresh ⟨"filesystem", "npx", ["-y"]⟩).stdoutPending = []
      ∧ (MCPProcess.fresh ⟨"filesystem", "npx", ["-y"]⟩).stdinClosed = false :=
  stop_start_fresh c8Manager ⟨"filesystem", "npx", ["-y"]⟩
    ⟨⟨"filesystem", "npx", ["-y"]⟩, true, false, ["stale"]⟩ rfl rfl

/-- C10: `Stop` on an identifier that was never registered returns the
`server ... not found` error — it does not succeed; the idempotent
success of `Stop` applies exactly to a registered process that is
already stopped, where `Stop` returns the manager state unchanged. -/
theorem stop_unknown_and_idempotent (m : ManagerState) (name : String) :
    (mgrLookup m name = none →
      mgrStop m name = Except.error ("server " ++ name ++ " not found"))
    ∧ ∀ proc, mgrLookup m name = some proc → proc.running = false →
        mgrStop m name = Except.ok m := by
  constructor
  · intro h
    simp [mgrStop, h]
  · intro proc h hr
    simp [mgrStop, h, hr]

theorem stop_unknown_and_idempotent_witness :
    mgrStop [] "ghost" = Except.error ("server " ++ "ghost" ++ " not found") :=
  (stop_unknown_and_idempotent [] "ghost").1 rfl

/-- The two concurrent callers of `Manager.Call` on one process. -/
inductive CallerId
  | a
  | b
deriving DecidableEq, Repr

/-- The observable actions one `Manager.Call` performs on a single
process: take the per-process mutex (`proc.mu.Lock()`), write the
request line to stdin, read the single response line from stdout,
release the mutex (the deferred `Unlock`). -/
inductive LockEvent
  | acq (t : CallerId)
  | writeReq (t : CallerId)
  | readResp (t : CallerId)
  | rel (t : CallerId)
deriving DecidableEq, Repr

/-- Mutex semantics of `proc.mu` on a single process: a trace is valid
from a given holder state when acquisition happens only while the lock
is free and write, read and release are performed only by the holder. -/
def validFrom : Option CallerId → List LockEvent → Bool
  | _, [] => true
  | none, LockEvent.acq t :: rest => validFrom (some t) rest
  | none, _ :: _ => false
  | some _, LockEvent.acq _ :: _ => false
  | some h, LockEvent.writeReq t :: rest => h == t && validFrom (some h) rest
  | some h, LockEvent.readResp t :: rest => h == t && validFrom (some h) rest
  | some h, LockEvent.rel t :: rest => h == t && validFrom none rest

/-- The event sequence of one `Manager.Call` by caller `t`: lock, write
the request, read exactly one response line, unlock. -/
def callEvents (t : CallerId) : List LockEvent :=
  [LockEvent.acq t, LockEvent.writeReq t, LockEvent.readResp t, LockEvent.rel t]

/-- Helper for `interleavings`: all interleavings of `x :: xs` with the
second argument, given the interleavings-with function of `xs`. -/
def interleaveAux (f : List LockEvent → List (List LockEvent))
    (x : LockEvent) (xs : List LockEvent) :
    List LockEvent → List (List LockEvent)
  | [] => [x :: xs]
  | y :: ys =>
      (f (y :: ys)).map (fun l => x :: l)
        ++ (interleaveAux f x xs ys).map (fun l => y :: l)

/-- All interleavings of two event sequences — every schedule the Go
runtime may produce for two concurrent callers. -/
def interleavings : List LockEvent → List LockEvent → List (List LockEvent)
  | [], ys => [ys]
  | x :: xs, ys => interleaveAux (interleavings xs) x xs ys

/-- C9: for any schedule of two concurrent `Manager.Call` invocations
on the same process that respects the per-process mutex, the two
write-request/read-response pairs are strictly serialized: the only
valid schedules are the two fully sequential ones, so at most one
request is in flight at a time and neither caller's read interleaves
with the other's request/response pair. -/
theorem concurrent_calls_serialized :
    ∀ tr ∈ interleavings (callEvents CallerId.a) (callEvents CallerId.b),
      validFrom none tr = true →
      tr = callEvents CallerId.a ++ callEvents CallerId.b
      ∨ tr = callEvents CallerId.b ++ callEvents CallerId.a := by
  decide

theorem concurrent_calls_serialized_witness :
    callEvents CallerId.a ++ callEvents CallerId.b
        = callEvents CallerId.a ++ callEvents CallerId.b
    ∨ callEvents CallerId.a ++ callEvents CallerId.b
        = callEvents CallerId.b ++ callEvents CallerId.a :=
  concurrent_calls_serialized
    (callEvents CallerId.a ++ callEvents CallerId.b) (by decide) (by decide)

end Golem
